import Mathlib

/- Formal model of `src/guardrails/datatypes.py`: the directive-string parser
(`FormatAttr`), the schema-node hierarchy (`DataType` and its scalar and
composite variants), and the recursive validate/correct algorithm, with
theorems about their behavior.

Conventions of the embedding:
* Python runtime values are the inductive `Value`; dictionaries are
  insertion-ordered association lists with string keys (the keys the engine
  writes are object field names, list indices and choice selectors).
* Python exceptions are the inductive `Err` threaded through `Except`:
  `ValueError` raised during coercion is `Err.typeCoercion`, `KeyError` is
  `Err.keyError`, `IndexError` is `Err.indexError`, `TypeError` and
  `AttributeError` are `Err.typeError`, the strict-mode binding `ValueError`
  is `Err.binding`, and the `ValueError` raised for a bad embedded expression
  is `Err.expr`.
* Validators (`guardrails.validators`, outside this module) are opaque to the
  engine: a validator is modelled as a total function from (key, typed value,
  schema container) to a new container or an error, exactly the shape of
  `validate_with_correction` as the engine calls it.
* In-place mutation of the threaded container is modelled by value passing:
  every statement `schema[key] = value` becomes an explicit functional update,
  and each function returns the container exactly where the source returns it.
* General recursion over the schema tree is modelled with an explicit fuel
  parameter (`Err.fuel` on exhaustion), so that the interpreter is structural
  and computable; all theorems are stated so that fuel exhaustion never
  counts as evidence.
-/

namespace Guardrails

/-- Python exceptions relevant to the module, see the header comment. -/
inductive Err where
  | typeCoercion
  | typeError
  | keyError
  | indexError
  | validatorFailure
  | binding
  | expr
  | fuel
deriving DecidableEq, Repr

/-- Python runtime values as the engine sees them: `None`, strings, ints,
booleans, `datetime.time`/`datetime.date` results of coercion, lists and
(string-keyed, insertion-ordered) dictionaries. -/
inductive Value where
  | null
  | str (s : String)
  | int (n : Int)
  | bool (b : Bool)
  | time (h m s : Nat)
  | date (y m d : Nat)
  | list (xs : List Value)
  | dict (xs : List (String × Value))
deriving Repr

/-- A validator instance as the engine invokes it:
`validate_with_correction(key, value, schema)` returns a possibly corrected
schema container, or raises. -/
abbrev Validator := Value → Value → Value → Except Err Value

/-- Association-list lookup for dictionaries (first match, as in a dict). -/
def assocFindStr : List (String × Value) → String → Option Value
  | [], _ => none
  | (k, v) :: rest, key => if k = key then some v else assocFindStr rest key

/-- Association-list update with Python dict semantics: an existing key keeps
its position and gets the new value, a new key is appended. -/
def assocSet : List (String × Value) → String → Value → List (String × Value)
  | [], key, w => [(key, w)]
  | (k, v) :: rest, key, w =>
      if k = key then (k, w) :: rest else (k, v) :: assocSet rest key w

/-- In-range positional update for lists (callers check the bound). -/
def listSet : List Value → Nat → Value → List Value
  | [], _, _ => []
  | _ :: rest, 0, w => w :: rest
  | x :: rest, n + 1, w => x :: listSet rest n w

/-- Positional read for lists. -/
def listGet : List Value → Nat → Option Value
  | [], _ => none
  | x :: _, 0 => some x
  | _ :: rest, n + 1 => listGet rest n

/-- `container[key]`: dictionary lookup by string key (`KeyError` when
absent, and for the non-string keys the engine can produce, which are never
present in a string-keyed dict), or positional list indexing with Python's
negative-index rule (`IndexError` out of range). Anything else is a
`TypeError`. -/
def dlookup (container key : Value) : Except Err Value :=
  match container, key with
  | Value.dict xs, Value.str k =>
      match assocFindStr xs k with
      | some v => Except.ok v
      | none => Except.error Err.keyError
  | Value.dict _, Value.list _ => Except.error Err.typeError
  | Value.dict _, Value.dict _ => Except.error Err.typeError
  | Value.dict _, _ => Except.error Err.keyError
  | Value.list xs, Value.int i =>
      let eff : Int := if i < 0 then (xs.length : Int) + i else i
      if 0 ≤ eff ∧ eff < (xs.length : Int) then
        match listGet xs eff.toNat with
        | some v => Except.ok v
        | none => Except.error Err.indexError
      else Except.error Err.indexError
  | Value.list _, _ => Except.error Err.typeError
  | _, _ => Except.error Err.typeError

/-- `container[key] = w`: dictionary update/insert for string keys, or
in-range positional list assignment (with Python's negative-index rule).
Anything else is a `TypeError`. -/
def dset (container key w : Value) : Except Err Value :=
  match container, key with
  | Value.dict xs, Value.str k => Except.ok (Value.dict (assocSet xs k w))
  | Value.dict _, _ => Except.error Err.typeError
  | Value.list xs, Value.int i =>
      let eff : Int := if i < 0 then (xs.length : Int) + i else i
      if 0 ≤ eff ∧ eff < (xs.length : Int) then
        Except.ok (Value.list (listSet xs eff.toNat w))
      else Except.error Err.indexError
  | Value.list _, _ => Except.error Err.typeError
  | _, _ => Except.error Err.typeError

/-- `value.get(key, None)`: only dictionaries have `.get`; any other
receiver raises `AttributeError`. -/
def pyGet (container : Value) (key : String) : Except Err Value :=
  match container with
  | Value.dict xs => Except.ok ((assocFindStr xs key).getD Value.null)
  | _ => Except.error Err.typeError

/-- `enumerate(value)` as the list node iterates it: lists yield their
elements, strings their characters, dictionaries their keys; other values
are not iterable (`TypeError`). -/
def pyEnumerate (v : Value) : Except Err (List Value) :=
  match v with
  | Value.list xs => Except.ok xs
  | Value.str s => Except.ok (s.data.map fun c => Value.str (String.mk [c]))
  | Value.dict xs => Except.ok (xs.map fun p => Value.str p.1)
  | _ => Except.error Err.typeError

/-! ### Directive-string parsing (`FormatAttr`) -/

/-- The single-quote character (codepoint 39). -/
def squote : Char := Char.ofNat 39

/-- The opening curly brace (codepoint 123). -/
def lbrace : Char := Char.ofNat 123

/-- The closing curly brace (codepoint 125). -/
def rbrace : Char := Char.ofNat 125

/-- The whitespace class of Python's `str.strip` and of the regex class
used by `parse_token` (ASCII fragment). -/
def isPySpace (c : Char) : Bool :=
  c = ' ' || c = Char.ofNat 9 || c = Char.ofNat 10 || c = Char.ofNat 13 ||
    c = Char.ofNat 11 || c = Char.ofNat 12

/-- Right trim: drop trailing whitespace. -/
def trimR (cs : List Char) : List Char :=
  ((cs.reverse).dropWhile isPySpace).reverse

/-- Python `str.strip()` on a character list. -/
def pyStripChars (cs : List Char) : List Char :=
  trimR (cs.dropWhile isPySpace)

/-- Python `str.strip()`. -/
def pyStrip (s : String) : String := String.mk (pyStripChars s.data)

/-- Python `s.split(sep, 1)` restricted to a single-character separator:
`none` when the separator does not occur, otherwise the material before the
first occurrence and everything after it. -/
def splitOnFirst (sep : Char) : List Char → Option (List Char × List Char)
  | [] => none
  | c :: rest =>
      if c = sep then some ([], rest)
      else (splitOnFirst sep rest).map fun p => (c :: p.1, p.2)

/-- One lookahead of the directive regexes: does `[^\x7b\x7d]*\x7d` match a
prefix of the remaining input, i.e. is the next brace character ahead a
closing brace? -/
def matchesCloseBrace : List Char → Bool
  | [] => false
  | c :: rest =>
      if c = rbrace then true
      else if c = lbrace then false
      else matchesCloseBrace rest

/-- The lookahead of the quote alternative of the `parse_token` regex: does
the remaining input match `[^\x27]*\x27$`, i.e. is the first single quote
ahead also the last character of the string? -/
def quoteAtEnd : List Char → Bool
  | [] => false
  | c :: rest => if c = squote then rest.isEmpty else quoteAtEnd rest

/-- The split decision of `re.split` with the `parse_token` pattern
(whitespace not followed by an unopened closing brace, or — as a second
alternative that only ever adds split points — whitespace not preceded by a
quote and followed by a quote that ends the string), applied at a whitespace
character with the given preceding character and remaining input. -/
def argSplitHere (prev : Option Char) (rest : List Char) : Bool :=
  !matchesCloseBrace rest || (prev != some squote && quoteAtEnd rest)

/-- `re.split` of the argument remainder with the `parse_token` pattern:
each matching whitespace character is consumed as a separator. -/
def argSplitGo (prev : Option Char) (acc : List Char) :
    List Char → List (List Char)
  | [] => [acc.reverse]
  | c :: rest =>
      if isPySpace c && argSplitHere prev rest then
        acc.reverse :: argSplitGo (some c) [] rest
      else
        argSplitGo (some c) (c :: acc) rest

/-- Tokens of the embedded-expression evaluator. -/
inductive ETok where
  | num (n : Int)
  | plus
  | minus
  | star
  | lpar
  | rpar
deriving DecidableEq, Repr

/-- Lexer for the embedded-expression language: integer literals and the
operator/parenthesis symbols, whitespace skipped; anything else is outside
the modelled grammar. The accumulator holds a digit run in progress. -/
def lexExpr (acc : Option Nat) : List Char → Except Err (List ETok)
  | [] =>
      match acc with
      | none => Except.ok []
      | some n => Except.ok [ETok.num (Int.ofNat n)]
  | c :: rest =>
      if c.isDigit then
        lexExpr (some ((acc.getD 0) * 10 + (c.toNat - 48))) rest
      else
        let tail : Except Err (List ETok) :=
          if isPySpace c then lexExpr none rest
          else if c = '+' then (lexExpr none rest).map (ETok.plus :: ·)
          else if c = '-' then (lexExpr none rest).map (ETok.minus :: ·)
          else if c = '*' then (lexExpr none rest).map (ETok.star :: ·)
          else if c = '(' then (lexExpr none rest).map (ETok.lpar :: ·)
          else if c = ')' then (lexExpr none rest).map (ETok.rpar :: ·)
          else Except.error Err.expr
        match acc with
        | none => tail
        | some n => tail.map (ETok.num (Int.ofNat n) :: ·)

/-- Fueled recursive-descent evaluator for the embedded expressions.
`lvl` 0 parses an atom (literal, unary minus, parenthesized expression),
1 a product, 2 a sum; 3 and 4 are the chain states carrying the left-hand
accumulator so that subtraction associates to the left. -/
def pe : Nat → Nat → Int → List ETok → Except Err (Int × List ETok)
  | 0, _, _, _ => Except.error Err.expr
  | _ + 1, 0, _, ETok.num n :: rest => Except.ok (n, rest)
  | f + 1, 0, _, ETok.minus :: rest =>
      (pe f 0 0 rest).map fun p => (-p.1, p.2)
  | f + 1, 0, _, ETok.lpar :: rest => do
      let p ← pe f 2 0 rest
      match p.2 with
      | ETok.rpar :: rest2 => Except.ok (p.1, rest2)
      | _ => Except.error Err.expr
  | _ + 1, 0, _, _ => Except.error Err.expr
  | f + 1, 1, _, toks => do
      let p ← pe f 0 0 toks
      pe f 3 p.1 p.2
  | f + 1, 3, acc, ETok.star :: rest => do
      let p ← pe f 0 0 rest
      pe f 3 (acc * p.1) p.2
  | _ + 1, 3, acc, toks => Except.ok (acc, toks)
  | f + 1, 2, _, toks => do
      let p ← pe f 1 0 toks
      pe f 4 p.1 p.2
  | f + 1, 4, acc, ETok.plus :: rest => do
      let p ← pe f 1 0 rest
      pe f 4 (acc + p.1) p.2
  | f + 1, 4, acc, ETok.minus :: rest => do
      let p ← pe f 1 0 rest
      pe f 4 (acc - p.1) p.2
  | _ + 1, 4, acc, toks => Except.ok (acc, toks)
  | _ + 1, _ + 5, _, _ => Except.error Err.expr

/-- Models the evaluation of a brace-delimited argument. The source calls
the host `eval` and maps its failures to `ValueError`; following the spec's
closed expression grammar, the model evaluates integer arithmetic
(literals, unary minus, `+ - *`, parentheses) and reports everything
outside that fragment as `Err.expr`. -/
def evalExpr (cs : List Char) : Except Err Value := do
  let toks ← lexExpr none cs
  let p ← pe (2 * toks.length + 2) 2 0 toks
  if p.2.isEmpty then Except.ok (Value.int p.1) else Except.error Err.expr

/-- One argument sub-token of `parse_token`: stripped, then evaluated as an
expression when brace-delimited, otherwise kept as a literal string. An
empty stripped sub-token would make `t[0]` raise in the source. -/
def processArg (t0 : List Char) : Except Err Value :=
  let t := pyStripChars t0
  match t with
  | [] => Except.error Err.indexError
  | c :: _ =>
      if c = lbrace && t.getLastD ' ' = rbrace then
        evalExpr ((t.drop 1).dropLast)
      else
        Except.ok (Value.str (String.mk t))

/-- `FormatAttr.parse_token`: strip the token and split on the first colon;
without a colon the trimmed token has no arguments; otherwise the remainder
is regex-split into sub-tokens, empties dropped, and each sub-token is
processed by `processArg`. -/
def parseToken (token : String) : Except Err (String × List Value) :=
  let stripped := pyStripChars token.data
  match splitOnFirst ':' stripped with
  | none => Except.ok (String.mk (pyStripChars stripped), [])
  | some (validator, argsTok) => do
      let raw := (argSplitGo none [] argsTok).filter (fun t => !t.isEmpty)
      let args ← raw.mapM processArg
      Except.ok (String.mk (pyStripChars validator), args)

/-- `re.split` of a format string on semicolons outside braces
(the `FormatAttr.tokens` pattern). -/
def fmtSplitGo (acc : List Char) : List Char → List (List Char)
  | [] => [acc.reverse]
  | c :: rest =>
      if c = ';' && !matchesCloseBrace rest then
        acc.reverse :: fmtSplitGo [] rest
      else
        fmtSplitGo (c :: acc) rest

/-- `FormatAttr.tokens`: an absent format yields no tokens; otherwise split
on semicolons outside braces and drop empty tokens. -/
def tokensOf : Option String → List String
  | none => []
  | some s =>
      ((fmtSplitGo [] s.data).filter (fun t => !t.isEmpty)).map String.mk

/-- Dict update for the parse result (later occurrence of a validator name
overwrites the earlier one, keeping its position). -/
def assocSetArgs : List (String × List Value) → String → List Value →
    List (String × List Value)
  | [], key, w => [(key, w)]
  | (k, v) :: rest, key, w =>
      if k = key then (k, w) :: rest else (k, v) :: assocSetArgs rest key w

/-- `FormatAttr.parse`: parse every token into a name/arguments entry of an
insertion-ordered mapping. -/
def parseFormat (fmt : Option String) : Except Err (List (String × List Value)) :=
  match fmt with
  | none => Except.ok []
  | some _ =>
      (tokensOf fmt).foldlM
        (fun acc tk => do
          let p ← parseToken tk
          Except.ok (assocSetArgs acc p.1 p.2))
        []

/-! ### Scalar coercion (`from_str`) -/

/-- Value of a digit run. -/
def digitsVal (ds : List Char) : Nat :=
  ds.foldl (fun acc c => acc * 10 + (c.toNat - 48)) 0

/-- Models the host `int()` on a string: surrounding whitespace stripped, an
optional sign, then a non-empty digit run; everything else raises
`ValueError` (`Err.typeCoercion`). -/
def pyParseInt (s : String) : Except Err Int :=
  let digitsOnly : List Char → Except Err Int := fun ds =>
    if ds ≠ [] ∧ ds.all Char.isDigit then Except.ok (Int.ofNat (digitsVal ds))
    else Except.error Err.typeCoercion
  match pyStripChars s.data with
  | '+' :: ds => digitsOnly ds
  | '-' :: ds => (digitsOnly ds).map Int.neg
  | ds => digitsOnly ds

/-- `String.from_str` (also `DataType.from_str`, inherited by email, url and
percentage): the identity. -/
def identityFromStr (v : Value) : Except Err Value := Except.ok v

/-- `Integer.from_str`: `None` stays `None`, otherwise the host `int()`
(strings parsed, ints passed through, bools are 0/1, other receivers raise
`TypeError`). -/
def integerFromStr (v : Value) : Except Err Value :=
  match v with
  | Value.null => Except.ok Value.null
  | Value.str s => (pyParseInt s).map Value.int
  | Value.int n => Except.ok (Value.int n)
  | Value.bool b => Except.ok (Value.int (if b then 1 else 0))
  | _ => Except.error Err.typeError

/-- `Boolean.from_str`: `None` stays `None`, an already-boolean input passes
through, the case-insensitive literals map to booleans, any other string
raises `ValueError`, and a receiver without `.lower()` raises
`AttributeError`. -/
def booleanFromStr (v : Value) : Except Err Value :=
  match v with
  | Value.null => Except.ok Value.null
  | Value.bool b => Except.ok (Value.bool b)
  | Value.str s =>
      if s.toLower = "true" then Except.ok (Value.bool true)
      else if s.toLower = "false" then Except.ok (Value.bool false)
      else Except.error Err.typeCoercion
  | _ => Except.error Err.typeError

/-- Parsed calendar/clock fields accumulated by `strptime`. -/
structure StParts where
  year : Option Nat := none
  month : Option Nat := none
  day : Option Nat := none
  hour : Option Nat := none
  minute : Option Nat := none
  second : Option Nat := none
deriving Repr

/-- Read one or two leading digits as a field value at most `hi`, preferring
two digits, falling back to one (the backtracking the host regexes
perform). -/
def readField (hi : Nat) : List Char → Except Err (Nat × List Char)
  | c1 :: c2 :: rest =>
      if c1.isDigit ∧ c2.isDigit then
        let two := (c1.toNat - 48) * 10 + (c2.toNat - 48)
        if two ≤ hi then Except.ok (two, rest)
        else if c1.toNat - 48 ≤ hi then Except.ok (c1.toNat - 48, c2 :: rest)
        else Except.error Err.typeCoercion
      else if c1.isDigit ∧ c1.toNat - 48 ≤ hi then
        Except.ok (c1.toNat - 48, c2 :: rest)
      else Except.error Err.typeCoercion
  | [c1] =>
      if c1.isDigit ∧ c1.toNat - 48 ≤ hi then Except.ok (c1.toNat - 48, [])
      else Except.error Err.typeCoercion
  | [] => Except.error Err.typeCoercion

/-- Read exactly four digits (the host's `%Y`). -/
def readYear : List Char → Except Err (Nat × List Char)
  | a :: b :: c :: d :: rest =>
      if a.isDigit ∧ b.isDigit ∧ c.isDigit ∧ d.isDigit then
        Except.ok (digitsVal [a, b, c, d], rest)
      else Except.error Err.typeCoercion
  | _ => Except.error Err.typeCoercion

/-- Models the host `datetime.datetime.strptime` on the directive fragment
the module uses (`%Y %m %d %H %M %S %%` and literal characters): parsing
failures and unconverted trailing data raise `ValueError`
(`Err.typeCoercion`). -/
def runStrptime : List Char → List Char → StParts → Except Err StParts
  | [], [], acc => Except.ok acc
  | [], _ :: _, _ => Except.error Err.typeCoercion
  | '%' :: dtl, inp, acc =>
      match dtl with
      | [] => Except.error Err.typeCoercion
      | d :: fr =>
          if d = 'Y' then do
            let p ← readYear inp
            runStrptime fr p.2 { acc with year := some p.1 }
          else if d = 'm' then do
            let p ← readField 12 inp
            runStrptime fr p.2 { acc with month := some p.1 }
          else if d = 'd' then do
            let p ← readField 31 inp
            runStrptime fr p.2 { acc with day := some p.1 }
          else if d = 'H' then do
            let p ← readField 23 inp
            runStrptime fr p.2 { acc with hour := some p.1 }
          else if d = 'M' then do
            let p ← readField 59 inp
            runStrptime fr p.2 { acc with minute := some p.1 }
          else if d = 'S' then do
            let p ← readField 61 inp
            runStrptime fr p.2 { acc with second := some p.1 }
          else if d = '%' then
            match inp with
            | '%' :: ir => runStrptime fr ir acc
            | _ => Except.error Err.typeCoercion
          else Except.error Err.typeCoercion
  | fc :: fr, inp, acc =>
      match inp with
      | [] => Except.error Err.typeCoercion
      | ic :: ir =>
          if ic = fc then runStrptime fr ir acc
          else Except.error Err.typeCoercion

/-- `datetime.datetime.strptime(s, fmt).time()`: absent fields default to
midnight. -/
def strptimeTime (fmt s : String) : Except Err Value := do
  let p ← runStrptime fmt.data s.data {}
  Except.ok (Value.time (p.hour.getD 0) (p.minute.getD 0) (p.second.getD 0))

/-- `datetime.datetime.strptime(s, fmt).date()`: absent fields default to
1900-01-01. -/
def strptimeDate (fmt s : String) : Except Err Value := do
  let p ← runStrptime fmt.data s.data {}
  Except.ok (Value.date (p.year.getD 1900) (p.month.getD 1) (p.day.getD 1))

/-- `Time.from_str`: `None` stays `None`, a string is parsed with the
node's `time_format` pattern, any other receiver raises `TypeError`. -/
def timeFromStrFmt (timeFormat : String) (v : Value) : Except Err Value :=
  match v with
  | Value.null => Except.ok Value.null
  | Value.str s => strptimeTime timeFormat s
  | _ => Except.error Err.typeError

/-- `Date.from_str`: `None` stays `None`, a string is parsed with the
node's `date_format` pattern, any other receiver raises `TypeError`. -/
def dateFromStrFmt (dateFormat : String) (v : Value) : Except Err Value :=
  match v with
  | Value.null => Except.ok Value.null
  | Value.str s => strptimeDate dateFormat s
  | _ => Except.error Err.typeError

/-! ### Construction of a `Time` node from markup (`Time.from_xml`) -/

/-- The state of a `Time` instance relevant to coercion: `time_format` is
set to the default pattern by `Time.__init__` and read by `Time.from_str`;
`date_format` is the attribute `Time.from_xml` actually assigns. -/
structure TimeNode where
  time_format : String
  date_format : Option String
deriving DecidableEq, Repr

/-- `Time.__init__`: the parse pattern defaults to percent-H colon
percent-M colon percent-S. -/
def timeInit : TimeNode := { time_format := "%H:%M:%S", date_format := none }

/-- Attribute lookup on a markup element, modelled as an association list. -/
def attrLookup : List (String × String) → String → Option String
  | [], _ => none
  | (k, v) :: rest, key => if k = key then some v else attrLookup rest key

/-- `Time.from_xml`: the inherited construction (modelled as default
initialization) followed by the attribute handling of the subclass body:
when the element carries a `time-format` attribute, its value is assigned
to the `date_format` field (`datatype.date_format = element.attrib[...]` in
the source) — not to the `time_format` field that `from_str` reads. -/
def timeFromXml (attribs : List (String × String)) : TimeNode :=
  let d := timeInit
  match attrLookup attribs "time-format" with
  | some f => { d with date_format := some f }
  | none => d

/-- `Time.from_str` on a constructed node: parses with the node's
`time_format`. -/
def timeNodeFromStr (n : TimeNode) (v : Value) : Except Err Value :=
  timeFromStrFmt n.time_format v

/-! ### The schema-node tree and the validation algorithm -/

/-- A schema node: the scalar variants carry their bound validators (and
the date/time parse patterns); the composite variants carry their bound
validators and their named children in declaration order. A `Choice` node
carries no directive validators because its `validators` property replaces
them with the synthesized choice validator; it carries the optional
`on-fail-choice` attribute that property reads. -/
inductive Node where
  | nString (vs : List Validator)
  | nInteger (vs : List Validator)
  | nBoolean (vs : List Validator)
  | nDate (vs : List Validator) (dateFormat : String)
  | nTime (vs : List Validator) (timeFormat : String)
  | nEmail (vs : List Validator)
  | nUrl (vs : List Validator)
  | nPercentage (vs : List Validator)
  | nList (vs : List Validator) (children : List (String × Node))
  | nObject (vs : List Validator) (children : List (String × Node))
  | nChoice (onFail : Option String) (children : List (String × Node))
  | nCase (vs : List Validator) (children : List (String × Node))

/-- The validator loop shared by every `validate` method:
`schema = validator.validate_with_correction(key, value, schema)` in
order. -/
def applyValidators : List Validator → Value → Value → Value → Except Err Value
  | [], _, _, schema => Except.ok schema
  | f :: rest, key, value, schema =>
      (f key value schema).bind fun s2 => applyValidators rest key value s2

/-- Modelled from the spec: the validator synthesized by the `Choice`
node's `validators` property (`guardrails.validators.Choice`, outside this
module) enforces a one-of-these-names constraint — the selector value must
be one of the declared case names; on failure it raises (the `on-fail`
policy token is opaque to the engine and unused by the model). -/
def choiceValidatorFn (choices : List String) (_onFail : Option String) : Validator :=
  fun _key value schema =>
    match value with
    | Value.str s =>
        if choices.contains s then Except.ok schema
        else Except.error Err.validatorFailure
    | _ => Except.error Err.validatorFailure

/-- `self._children[selected_key]` of `Choice.validate`: case lookup by the
selector value (`KeyError` when no case matches or the selector is not a
string key of the children dict). -/
def findCase : List (String × Node) → Value → Except Err Node
  | [], _ => Except.error Err.keyError
  | (k, n) :: rest, sel =>
      match sel with
      | Value.str s => if k = s then Except.ok n else findCase rest sel
      | _ => Except.error Err.keyError

/-- The coercion step of `DataType.validate` for each variant
(`value = self.from_str(value)`); composite variants inherit the identity
but never reach it through `DataType.validate` except `Choice`. -/
def scalarFromStr : Node → Value → Except Err Value
  | Node.nString _, v => identityFromStr v
  | Node.nInteger _, v => integerFromStr v
  | Node.nBoolean _, v => booleanFromStr v
  | Node.nDate _ fmt, v => dateFromStrFmt fmt v
  | Node.nTime _ fmt, v => timeFromStrFmt fmt v
  | Node.nEmail _, v => identityFromStr v
  | Node.nUrl _, v => identityFromStr v
  | Node.nPercentage _, v => identityFromStr v
  | _, v => identityFromStr v

/-- The directive-bound validator list of a node (for `Choice` the
`validators` property discards it, so the model stores none). -/
def ownValidators : Node → List Validator
  | Node.nString vs => vs
  | Node.nInteger vs => vs
  | Node.nBoolean vs => vs
  | Node.nDate vs _ => vs
  | Node.nTime vs _ => vs
  | Node.nEmail vs => vs
  | Node.nUrl vs => vs
  | Node.nPercentage vs => vs
  | Node.nList vs _ => vs
  | Node.nObject vs _ => vs
  | Node.nChoice _ _ => []
  | Node.nCase vs _ => vs

/-- Scalar variants (subclasses of `ScalarType`). -/
def isScalar : Node → Bool
  | Node.nString _ => true
  | Node.nInteger _ => true
  | Node.nBoolean _ => true
  | Node.nDate _ _ => true
  | Node.nTime _ _ => true
  | Node.nEmail _ => true
  | Node.nUrl _ => true
  | Node.nPercentage _ => true
  | _ => false

/-- A scalar node with no bound validators. -/
def scalarNoVal (n : Node) : Bool :=
  isScalar n && (ownValidators n).isEmpty

/-- Roots whose validation reads the container only through their own
validators: every variant except `Choice` (which reads `schema[value]`)
and `Case` (whose child may). -/
def rootIdemOk : Node → Bool
  | Node.nChoice _ _ => false
  | Node.nCase _ _ => false
  | _ => true

/-- The pending work items of the fueled interpreter: a node's `validate`
call, the per-item loop of `List.validate` (iterating the elements captured
from the original value, threading the list itself as container), and the
per-child loop of `Object.validate` (threading the object itself as
container). -/
inductive VTask where
  | node (n : Node) (key value schema : Value)
  | items (item : Node) (xs : List Value) (i : Int) (value : Value)
  | fields (cs : List (String × Node)) (value : Value)

/-- The fueled interpreter of the `validate` methods. For each variant it
follows the source line by line: scalars coerce then run their validators
and return the container; `List.validate` runs its validators, returns
when it has no item child, otherwise iterates `enumerate(value)` threading
the list as container and returns the (validator-folded) container;
`Object.validate` runs its validators, returns when it has no children,
otherwise fetches `value.get(child_key, None)` for each declared child,
threads the object as the child's container, and finally writes the
threaded object at `schema[key]`; `Choice.validate` runs the inherited
`DataType.validate` (identity coercion plus the synthesized choice
validator) discarding its result, reads the branch value at
`schema[value]`, recurses into the matching case discarding its result,
and finally writes `schema[key] = value`; `Case.validate` delegates to its
first child (an empty children dict would raise `IndexError`), discarding
its result, then writes `schema[key] = value`. -/
def step : Nat → VTask → Except Err Value
  | 0, _ => Except.error Err.fuel
  | _ + 1, VTask.node (Node.nString vs) key value schema =>
      (identityFromStr value).bind fun v => applyValidators vs key v schema
  | _ + 1, VTask.node (Node.nInteger vs) key value schema =>
      (integerFromStr value).bind fun v => applyValidators vs key v schema
  | _ + 1, VTask.node (Node.nBoolean vs) key value schema =>
      (booleanFromStr value).bind fun v => applyValidators vs key v schema
  | _ + 1, VTask.node (Node.nDate vs fmt) key value schema =>
      (dateFromStrFmt fmt value).bind fun v => applyValidators vs key v schema
  | _ + 1, VTask.node (Node.nTime vs fmt) key value schema =>
      (timeFromStrFmt fmt value).bind fun v => applyValidators vs key v schema
  | _ + 1, VTask.node (Node.nEmail vs) key value schema =>
      (identityFromStr value).bind fun v => applyValidators vs key v schema
  | _ + 1, VTask.node (Node.nUrl vs) key value schema =>
      (identityFromStr value).bind fun v => applyValidators vs key v schema
  | _ + 1, VTask.node (Node.nPercentage vs) key value schema =>
      (identityFromStr value).bind fun v => applyValidators vs key v schema
  | f + 1, VTask.node (Node.nList vs children) key value schema => do
      let schema1 ← applyValidators vs key value schema
      match children with
      | [] => Except.ok schema1
      | (_, itemN) :: _ => do
          let xs ← pyEnumerate value
          let _ ← step f (VTask.items itemN xs 0 value)
          Except.ok schema1
  | f + 1, VTask.node (Node.nObject vs children) key value schema => do
      let schema1 ← applyValidators vs key value schema
      match children with
      | [] => Except.ok schema1
      | _ :: _ => do
          let v2 ← step f (VTask.fields children value)
          dset schema1 key v2
  | f + 1, VTask.node (Node.nChoice onFail children) key value schema => do
      let _ ← (identityFromStr value).bind fun v =>
        applyValidators [choiceValidatorFn (children.map Prod.fst) onFail] key v schema
      let bv ← dlookup schema value
      let caseN ← findCase children value
      let _ ← step f (VTask.node caseN value bv schema)
      dset schema key value
  | f + 1, VTask.node (Node.nCase _ children) key value schema =>
      match children with
      | [] => Except.error Err.indexError
      | (_, child) :: _ => do
          let _ ← step f (VTask.node child key value schema)
          dset schema key value
  | _ + 1, VTask.items _ [] _ value => Except.ok value
  | f + 1, VTask.items itemN (x :: rest) i value => do
      let value2 ← step f (VTask.node itemN (Value.int i) x value)
      step f (VTask.items itemN rest (i + 1) value2)
  | _ + 1, VTask.fields [] value => Except.ok value
  | f + 1, VTask.fields ((ck, cn) :: rest) value => do
      let fetched ← pyGet value ck
      let value2 ← step f (VTask.node cn (Value.str ck) fetched value)
      step f (VTask.fields rest value2)

/-- `node.validate(key, value, schema)` with the given fuel. -/
def pyValidate (fuel : Nat) (n : Node) (key value schema : Value) :
    Except Err Value :=
  step fuel (VTask.node n key value schema)

/-! ### Validator binding (`FormatAttr.get_validators`) -/

/-- A constructed validator instance. The constructors live in the external
validator catalog (`validators_registry[name](*args, on_fail=on_fail)`);
the model records the construction arguments. -/
structure VInst where
  name : String
  args : List Value
  onFail : Option String

/-- The instance built for a parsed entry: the positional arguments from
the directive and the optional policy token from the per-node attribute
named `on-fail-<validatorName>`. -/
def buildInst (attribs : List (String × String)) (name : String)
    (args : List Value) : VInst :=
  { name := name, args := args, onFail := attrLookup attribs ("on-fail-" ++ name) }

/-- `FormatAttr.get_validators` over the parsed directive entries:
`applicable tag` is the name set the external catalog registers for the
element's tag (`types_to_validators[self.element.tag]`). An entry whose
name is not in that set raises `ValueError` in strict mode and is recorded
in the unregistered list (and skipped) otherwise; an applicable entry
constructs its validator instance. Returns the instance list and the
unregistered-name list, both in directive order. -/
def getValidators (applicable : String → List String) (tag : String)
    (attribs : List (String × String)) (strict : Bool) :
    List (String × List Value) → Except Err (List VInst × List String)
  | [] => Except.ok ([], [])
  | (name, args) :: rest =>
      if (applicable tag).contains name then do
        let p ← getValidators applicable tag attribs strict rest
        Except.ok (buildInst attribs name args :: p.1, p.2)
      else if strict then Except.error Err.binding
      else do
        let p ← getValidators applicable tag attribs strict rest
        Except.ok (p.1, name :: p.2)

/-! ### Helper lemmas -/

theorem mem_of_mem_dropWhile {p : Char → Bool} :
    ∀ {l : List Char} {x : Char}, x ∈ l.dropWhile p → x ∈ l := by
  intro l
  induction l with
  | nil => intro x h; simp [List.dropWhile] at h
  | cons a l ih =>
    intro x h
    by_cases hp : p a
    · rw [List.dropWhile_cons_of_pos hp] at h
      exact List.mem_cons_of_mem a (ih h)
    · rwa [List.dropWhile_cons_of_neg hp] at h

theorem mem_of_mem_pyStripChars {l : List Char} {x : Char}
    (h : x ∈ pyStripChars l) : x ∈ l := by
  unfold pyStripChars trimR at h
  rw [List.mem_reverse] at h
  have h2 := mem_of_mem_dropWhile h
  rw [List.mem_reverse] at h2
  exact mem_of_mem_dropWhile h2

theorem splitOnFirst_eq_none {sep : Char} :
    ∀ {l : List Char}, sep ∉ l → splitOnFirst sep l = none := by
  intro l
  induction l with
  | nil => intro _; rfl
  | cons a l ih =>
    intro h
    have ha : a ≠ sep := fun hc => h (hc ▸ List.mem_cons_self a l)
    have hl : sep ∉ l := fun hc => h (List.mem_cons_of_mem a hc)
    simp [splitOnFirst, ha, ih hl]

theorem dropWhile_append_singleton {p : Char → Bool} {c : Char}
    (hc : p c = false) :
    ∀ xs : List Char, (xs ++ [c]).dropWhile p = xs.dropWhile p ++ [c] := by
  intro xs
  induction xs with
  | nil => simp [List.dropWhile, hc]
  | cons a l ih =>
    by_cases hp : p a
    · simpa [List.dropWhile_cons_of_pos hp] using ih
    · simp [List.dropWhile_cons_of_neg hp]

theorem trimR_cons_of_neg {c : Char} {l : List Char}
    (hc : isPySpace c = false) : trimR (c :: l) = c :: trimR l := by
  unfold trimR
  rw [List.reverse_cons, dropWhile_append_singleton hc, List.reverse_append]
  rfl

theorem trimR_idem (l : List Char) : trimR (trimR l) = trimR l := by
  unfold trimR
  rw [List.reverse_reverse, List.dropWhile_idempotent]

theorem dropWhile_head_false {p : Char → Bool} :
    ∀ {l : List Char} {c : Char} {r : List Char},
      l.dropWhile p = c :: r → p c = false := by
  intro l
  induction l with
  | nil => intro c r h; simp [List.dropWhile] at h
  | cons a l ih =>
    intro c r h
    by_cases hp : p a
    · rw [List.dropWhile_cons_of_pos hp] at h
      exact ih h
    · rw [List.dropWhile_cons_of_neg hp] at h
      cases h
      simpa using hp

theorem pyStripChars_idem (l : List Char) :
    pyStripChars (pyStripChars l) = pyStripChars l := by
  unfold pyStripChars
  cases hm : l.dropWhile isPySpace with
  | nil => rfl
  | cons c r =>
    have hc : isPySpace c = false := dropWhile_head_false hm
    rw [trimR_cons_of_neg hc, List.dropWhile_cons_of_neg (by simp [hc]),
      trimR_cons_of_neg hc, trimR_idem]

theorem assocSet_assocSet (xs : List (String × Value)) (k : String) (w : Value) :
    assocSet (assocSet xs k w) k w = assocSet xs k w := by
  induction xs with
  | nil => simp [assocSet]
  | cons p rest ih =>
    by_cases hk : p.1 = k
    · simp [assocSet, hk]
    · simp [assocSet, hk, ih]

theorem assocFindStr_assocSet (xs : List (String × Value)) (k : String)
    (w : Value) : assocFindStr (assocSet xs k w) k = some w := by
  induction xs with
  | nil => simp [assocSet, assocFindStr]
  | cons p rest ih =>
    by_cases hk : p.1 = k
    · simp [assocSet, hk, assocFindStr]
    · simp [assocSet, hk, assocFindStr, ih]

theorem listSet_length :
    ∀ (xs : List Value) (n : Nat) (w : Value),
      (listSet xs n w).length = xs.length := by
  intro xs
  induction xs with
  | nil => intro n w; rfl
  | cons x rest ih =>
    intro n w
    cases n with
    | zero => rfl
    | succ m => simp [listSet, ih]

theorem listSet_listSet :
    ∀ (xs : List Value) (n : Nat) (w : Value),
      listSet (listSet xs n w) n w = listSet xs n w := by
  intro xs
  induction xs with
  | nil => intro n w; rfl
  | cons x rest ih =>
    intro n w
    cases n with
    | zero => rfl
    | succ m => simp [listSet, ih]

theorem listGet_listSet :
    ∀ (xs : List Value) (n : Nat) (w : Value), n < xs.length →
      listGet (listSet xs n w) n = some w := by
  intro xs
  induction xs with
  | nil => intro n w h; simp at h
  | cons x rest ih =>
    intro n w h
    cases n with
    | zero => rfl
    | succ m =>
      simp [listSet, listGet]
      exact ih m w (by simp at h; exact h)

theorem dset_idem {s k w s' : Value} (h : dset s k w = Except.ok s') :
    dset s' k w = Except.ok s' := by
  cases s with
  | dict xs =>
    cases k with
    | str k0 =>
      simp [dset] at h
      subst h
      simp [dset, assocSet_assocSet]
    | null => simp [dset] at h
    | int n => simp [dset] at h
    | bool b => simp [dset] at h
    | time a b c => simp [dset] at h
    | date a b c => simp [dset] at h
    | list ys => simp [dset] at h
    | dict ys => simp [dset] at h
  | list xs =>
    cases k with
    | int i =>
      simp only [dset] at h
      by_cases hr : 0 ≤ (if i < 0 then (xs.length : Int) + i else i) ∧
          (if i < 0 then (xs.length : Int) + i else i) < (xs.length : Int)
      · rw [if_pos hr] at h
        cases h
        simp only [dset, listSet_length]
        rw [if_pos hr, listSet_listSet]
      · rw [if_neg hr] at h
        cases h
    | null => simp [dset] at h
    | str k0 => simp [dset] at h
    | bool b => simp [dset] at h
    | time a b c => simp [dset] at h
    | date a b c => simp [dset] at h
    | list ys => simp [dset] at h
    | dict ys => simp [dset] at h
  | null => simp [dset] at h
  | str t => simp [dset] at h
  | int n => simp [dset] at h
  | bool b => simp [dset] at h
  | time a b c => simp [dset] at h
  | date a b c => simp [dset] at h

theorem dlookup_dset {s k w s' : Value} (h : dset s k w = Except.ok s') :
    dlookup s' k = Except.ok w := by
  cases s with
  | dict xs =>
    cases k with
    | str k0 =>
      simp [dset] at h
      subst h
      simp [dlookup, assocFindStr_assocSet]
    | null => simp [dset] at h
    | int n => simp [dset] at h
    | bool b => simp [dset] at h
    | time a b c => simp [dset] at h
    | date a b c => simp [dset] at h
    | list ys => simp [dset] at h
    | dict ys => simp [dset] at h
  | list xs =>
    cases k with
    | int i =>
      simp only [dset] at h
      by_cases hr : 0 ≤ (if i < 0 then (xs.length : Int) + i else i) ∧
          (if i < 0 then (xs.length : Int) + i else i) < (xs.length : Int)
      · rw [if_pos hr] at h
        cases h
        simp only [dlookup, listSet_length]
        rw [if_pos hr, listGet_listSet]
        · exact Int.toNat_lt' (by omega) |>.mpr (by omega)
      · rw [if_neg hr] at h
        cases h
    | null => simp [dset] at h
    | str k0 => simp [dset] at h
    | bool b => simp [dset] at h
    | time a b c => simp [dset] at h
    | date a b c => simp [dset] at h
    | list ys => simp [dset] at h
    | dict ys => simp [dset] at h
  | null => simp [dset] at h
  | str t => simp [dset] at h
  | int n => simp [dset] at h
  | bool b => simp [dset] at h
  | time a b c => simp [dset] at h
  | date a b c => simp [dset] at h

theorem exbind_ok {α β : Type} (a : α) (f : α → Except Err β) :
    (Except.ok a >>= f) = f a := rfl

theorem exbind_error {α β : Type} (e : Err) (f : α → Except Err β) :
    ((Except.error e : Except Err α) >>= f) = Except.error e := rfl

theorem exbindm_ok {α β : Type} (a : α) (f : α → Except Err β) :
    (Except.ok a).bind f = f a := rfl

theorem exbindm_error {α β : Type} (e : Err) (f : α → Except Err β) :
    (Except.error e : Except Err α).bind f = Except.error e := rfl

theorem scalar_step_eq (f : Nat) (n : Node) (k v s : Value)
    (hs : isScalar n = true) (hv : ownValidators n = []) :
    step (f + 1) (VTask.node n k v s) =
      (scalarFromStr n v >>= fun _ => Except.ok s) := by
  cases n with
  | nString vs => simp only [ownValidators] at hv; subst hv; rfl
  | nInteger vs => simp only [ownValidators] at hv; subst hv; rfl
  | nBoolean vs => simp only [ownValidators] at hv; subst hv; rfl
  | nDate vs fmt => simp only [ownValidators] at hv; subst hv; rfl
  | nTime vs fmt => simp only [ownValidators] at hv; subst hv; rfl
  | nEmail vs => simp only [ownValidators] at hv; subst hv; rfl
  | nUrl vs => simp only [ownValidators] at hv; subst hv; rfl
  | nPercentage vs => simp only [ownValidators] at hv; subst hv; rfl
  | nList vs cs => simp [isScalar] at hs
  | nObject vs cs => simp [isScalar] at hs
  | nChoice onFail cs => simp [isScalar] at hs
  | nCase vs cs => simp [isScalar] at hs

theorem fields_scalar_frame :
    ∀ (cs : List (String × Node)) (f : Nat) (v v' : Value),
      cs.all (fun p => scalarNoVal p.2) = true →
      step f (VTask.fields cs v) = Except.ok v' → v' = v := by
  intro cs
  induction cs with
  | nil =>
    intro f v v' _ h
    cases f with
    | zero => simp [step] at h
    | succ f2 =>
      simp [step] at h
      exact h.symm
  | cons c rest ih =>
    intro f v v' hall h
    obtain ⟨ck, cn⟩ := c
    simp only [List.all_cons, Bool.and_eq_true, scalarNoVal] at hall
    obtain ⟨⟨hs1, hs2⟩, hrest⟩ := hall
    have hv : ownValidators cn = [] := List.isEmpty_iff.mp hs2
    cases f with
    | zero => simp [step] at h
    | succ f2 =>
      simp only [step] at h
      cases hg : pyGet v ck with
      | error e => rw [hg, exbind_error] at h; exact absurd h (by simp)
      | ok fetched =>
        rw [hg, exbind_ok] at h
        cases f2 with
        | zero => rw [step, exbind_error] at h; exact absurd h (by simp)
        | succ f3 =>
          rw [scalar_step_eq f3 cn (Value.str ck) fetched v hs1 hv] at h
          cases hc : scalarFromStr cn fetched with
          | error e => rw [hc, exbind_error, exbind_error] at h; exact absurd h (by simp)
          | ok w =>
            rw [hc, exbind_ok, exbind_ok] at h
            exact ih (f3 + 1) v v' hrest h

/-! ### Claims -/

/-- C3: the claim says a `time-format` markup attribute overrides the
pattern `from_str` parses with. In the source, `Time.from_xml` assigns the
attribute to `date_format`, a field `Time.from_str` never reads, so the
node's `time_format` stays at the default pattern and coercion of a
non-null literal still parses with percent-H colon percent-M colon
percent-S: with attribute value percent-H, the literal "12" — which the
overridden pattern would parse to 12:00:00 — raises `TypeCoercionError`
instead; `null` stays `null`. -/
theorem claim_C3_time_format_bug :
    (timeFromXml [("time-format", "%H")]).time_format = "%H:%M:%S" ∧
    (timeFromXml [("time-format", "%H")]).date_format = some "%H" ∧
    timeNodeFromStr (timeFromXml [("time-format", "%H")]) (Value.str "12") =
      Except.error Err.typeCoercion ∧
    strptimeTime "%H" "12" = Except.ok (Value.time 12 0 0) ∧
    timeNodeFromStr (timeFromXml [("time-format", "%H")]) Value.null =
      Except.ok Value.null ∧
    pyValidate 2 (Node.nTime [] (timeFromXml [("time-format", "%H")]).time_format)
        (Value.str "t") (Value.str "12") (Value.dict []) =
      Except.error Err.typeCoercion :=
  ⟨rfl, rfl, rfl, rfl, rfl, rfl⟩

/-- C4: the claim (and the source's own comment) say whitespace inside a
single-quoted span that ends the argument string is not split on. The
split pattern is a union whose quote alternative only adds split points,
so the trailing quoted phrase "hello world" is split at its interior
space into two arguments. -/
theorem claim_C4_quote_split_bug :
    parseToken ("name: " ++ squote.toString ++ "hello world" ++ squote.toString) =
      Except.ok ("name",
        [Value.str (squote.toString ++ "hello"),
         Value.str ("world" ++ squote.toString)]) := rfl

/-- C6: `parse_token` splits on the first colon, a colon-free token
yielding the trimmed token with no arguments; brace-delimited argument
sub-tokens are stripped of their braces and evaluated as arithmetic while
other sub-tokens stay trimmed literals, so "is-in: {1+2} {2+3}" parses to
("is-in", [3, 5]). -/
theorem claim_C6_parse_token :
    (∀ t : String, (':' ∉ t.data) → parseToken t = Except.ok (pyStrip t, [])) ∧
    parseToken "is-in: {1+2} {2+3}" =
      Except.ok ("is-in", [Value.int 3, Value.int 5]) ∧
    parseToken "is-in: 1 2" =
      Except.ok ("is-in", [Value.str "1", Value.str "2"]) := by
  refine ⟨?_, rfl, rfl⟩
  intro t h
  have h2 : ':' ∉ pyStripChars t.data := fun hc => h (mem_of_mem_pyStripChars hc)
  unfold parseToken
  simp only [splitOnFirst_eq_none h2]
  simp [pyStrip, pyStripChars_idem]

/-- C6 witness: the colon-free token "valid-url" parses to itself with no
arguments. -/
theorem claim_C6_witness :
    parseToken "valid-url" = Except.ok (pyStrip "valid-url", []) :=
  claim_C6_parse_token.1 "valid-url" (by decide)

/-- C7: resolving validators against the parsed directive entries treats a
name not applicable to the node's tag as the single locally recovered
condition: in lenient mode it is recorded in the unregistered list and the
entry is skipped (no instance is constructed for it), resolution
continuing with the rest, while applicable entries construct instances in
directive order; in strict mode any inapplicable entry fails with the
binding error. -/
theorem claim_C7_get_validators
    (applicable : String → List String) (tag : String)
    (attribs : List (String × String)) (parsed : List (String × List Value)) :
    getValidators applicable tag attribs false parsed =
      Except.ok
        (parsed.filterMap fun p =>
          if (applicable tag).contains p.1 then
            some (buildInst attribs p.1 p.2)
          else none,
         (parsed.filter fun p => !(applicable tag).contains p.1).map Prod.fst) ∧
    getValidators applicable tag attribs true parsed =
      (if parsed.all fun p => (applicable tag).contains p.1 then
        Except.ok (parsed.map fun p => buildInst attribs p.1 p.2, [])
      else Except.error Err.binding) := by
  induction parsed with
  | nil => exact ⟨rfl, rfl⟩
  | cons p rest ih =>
    obtain ⟨name, args⟩ := p
    constructor
    · by_cases hc : name ∈ applicable tag
      · simp [getValidators, hc, ih.1, List.filterMap_cons, List.filter_cons,
          exbind_ok]
      · simp [getValidators, hc, ih.1, List.filterMap_cons, List.filter_cons,
          exbind_ok]
    · by_cases hc : name ∈ applicable tag
      · rw [List.all_cons]
        simp only [getValidators, ih.2]
        cases ha : rest.all fun p => (applicable tag).contains p.1
        · simp [hc, exbind_error]
        · simp [hc, exbind_ok]
      · simp [getValidators, hc, List.all_cons]

/-- C10: a scalar node with no bound validators computes the coerced value
(possibly raising on bad input) and otherwise returns the container
completely unchanged — it never writes under any key. -/
theorem claim_C10_scalar_frame (f : Nat) (n : Node) (k v s : Value)
    (hs : isScalar n = true) (hv : ownValidators n = []) :
    pyValidate (f + 1) n k v s = (scalarFromStr n v >>= fun _ => Except.ok s) :=
  scalar_step_eq f n k v s hs hv

/-- C10 witness: an integer node with no validators on the value "5"
returns the container unchanged. -/
theorem claim_C10_witness :
    pyValidate 1 (Node.nInteger []) (Value.str "k") (Value.str "5")
        (Value.dict [("z", Value.int 1)]) =
      (integerFromStr (Value.str "5") >>= fun _ =>
        Except.ok (Value.dict [("z", Value.int 1)])) :=
  claim_C10_scalar_frame 0 (Node.nInteger []) (Value.str "k") (Value.str "5")
    (Value.dict [("z", Value.int 1)]) rfl rfl

/-- C5: for the list schema with an integer item child applied to the list
["1","2","x"], the list node's own validators run first on the whole list
(peeling one validator at a time), the elements are validated by 0-based
index with the list itself as container, indices 0 and 1 coerce to the
integers 1 and 2, and the element at index 2 raises `TypeCoercionError`
during coercion, before any validator bound to that element could run. -/
theorem claim_C5_list_coercion :
    (∀ (g : Validator) (vsL : List Validator) (cs : List (String × Node))
        (k v s : Value) (f : Nat),
        pyValidate (f + 1) (Node.nList (g :: vsL) cs) k v s =
          (g k v s >>= fun s2 => pyValidate (f + 1) (Node.nList vsL cs) k v s2)) ∧
    integerFromStr (Value.str "1") = Except.ok (Value.int 1) ∧
    integerFromStr (Value.str "2") = Except.ok (Value.int 2) ∧
    (∀ (vs : List Validator) (k s : Value) (f : Nat),
        pyValidate (f + 1) (Node.nInteger vs) k (Value.str "x") s =
          Except.error Err.typeCoercion) ∧
    (∀ s : Value,
        pyValidate 20 (Node.nList [] [("item", Node.nInteger [])]) (Value.str "k")
          (Value.list [Value.str "1", Value.str "2", Value.str "x"]) s =
          Except.error Err.typeCoercion) := by
  refine ⟨?_, rfl, rfl, fun vs k s f => rfl, fun s => rfl⟩
  intro g vsL cs k v s f
  simp only [pyValidate, step, applyValidators]
  cases hg : g k v s with
  | error e => simp [exbindm_error, exbind_error]
  | ok s2 => simp [exbindm_ok, exbind_ok]

/-- C2: `Choice.validate` applies the node's own (synthesized) validators
first — a selector outside the case names fails before any branch lookup —
then treats the passed value as the selector, reads the branch value from
`container[value]` rather than from the passed value (with cases "x","y"
and container mapping selector to "x", "x" to "42" and "y" to "7",
`validate("selector","x",container)` succeeds against an integer-child
case because "42" at `container["x"]` parses, and fails with
`TypeCoercionError` exactly when `container["x"]` holds a non-numeric
string), recurses into the matching Case — which delegates to its single
child and then writes `container[selector] = branchValue` — and finally
writes `container[key] = selector`, leaving `container["selector"] = "x"`. -/
theorem claim_C2_choice_selector :
    (∀ (f : Nat) (vs : List Validator) (nm : String) (c : Node)
        (rest : List (String × Node)) (k v s : Value),
        pyValidate (f + 1) (Node.nCase vs ((nm, c) :: rest)) k v s =
          (pyValidate f c k v s >>= fun _ => dset s k v)) ∧
    pyValidate 9
        (Node.nChoice none
          [("x", Node.nCase [] [("cx", Node.nInteger [])]),
           ("y", Node.nCase [] [("cy", Node.nString [])])])
        (Value.str "selector") (Value.str "x")
        (Value.dict [("selector", Value.str "x"), ("x", Value.str "42"),
          ("y", Value.str "7")]) =
      Except.ok
        (Value.dict [("selector", Value.str "x"), ("x", Value.str "42"),
          ("y", Value.str "7")]) ∧
    dlookup
        (Value.dict [("selector", Value.str "x"), ("x", Value.str "42"),
          ("y", Value.str "7")]) (Value.str "selector") =
      Except.ok (Value.str "x") ∧
    pyValidate 9
        (Node.nChoice none
          [("x", Node.nCase [] [("cx", Node.nInteger [])]),
           ("y", Node.nCase [] [("cy", Node.nString [])])])
        (Value.str "selector") (Value.str "x")
        (Value.dict [("selector", Value.str "x"), ("x", Value.str "zz"),
          ("y", Value.str "7")]) =
      Except.error Err.typeCoercion ∧
    pyValidate 9
        (Node.nChoice none
          [("x", Node.nCase [] [("cx", Node.nInteger [])]),
           ("y", Node.nCase [] [("cy", Node.nString [])])])
        (Value.str "selector") (Value.str "z")
        (Value.dict [("selector", Value.str "x"), ("x", Value.str "42"),
          ("y", Value.str "7")]) =
      Except.error Err.validatorFailure :=
  ⟨fun _ _ _ _ _ _ _ _ => rfl, rfl, rfl, rfl, rfl⟩

/-- C9 counterexample: an object node with zero declared children returns
the container unmodified — `container["k"]` is not written. -/
theorem claim_C9_counterexample :
    pyValidate 2 (Node.nObject [] []) (Value.str "k")
        (Value.dict [("a", Value.str "hi")]) (Value.dict []) =
      Except.ok (Value.dict []) ∧
    dlookup (Value.dict []) (Value.str "k") = Except.error Err.keyError :=
  ⟨rfl, rfl⟩

/-- C9 (amended): when the object node has at least one declared child,
`Object.validate` finishes by writing the threaded object value into
`container[key]`: a successful run factors into the validator fold, the
child threading, and a final `container[key] = value` write, after which
`container[key]` holds the validated object. With zero declared children
the method returns before the write (see the counterexample). -/
theorem claim_C9_object_write (f : Nat) (vs : List Validator)
    (c : String × Node) (cs : List (String × Node)) (k v s s' : Value)
    (h : pyValidate (f + 1) (Node.nObject vs (c :: cs)) k v s = Except.ok s') :
    ∃ s1 v2, applyValidators vs k v s = Except.ok s1 ∧
      step f (VTask.fields (c :: cs) v) = Except.ok v2 ∧
      dset s1 k v2 = Except.ok s' ∧ dlookup s' k = Except.ok v2 := by
  simp only [pyValidate, step] at h
  cases ha : applyValidators vs k v s with
  | error e => rw [ha, exbind_error] at h; exact absurd h (by simp)
  | ok s1 =>
    rw [ha, exbind_ok] at h
    cases hf : step f (VTask.fields (c :: cs) v) with
    | error e => rw [hf, exbind_error] at h; exact absurd h (by simp)
    | ok v2 =>
      rw [hf, exbind_ok] at h
      exact ⟨s1, v2, rfl, rfl, h, dlookup_dset h⟩

/-- C9 witness: a one-child object write, with the container afterwards
holding the validated object at the key. -/
theorem claim_C9_witness :
    ∃ s1 v2,
      applyValidators [] (Value.str "k") (Value.dict [("a", Value.str "hi")])
          (Value.dict []) = Except.ok s1 ∧
      step 8 (VTask.fields [("a", Node.nString [])]
          (Value.dict [("a", Value.str "hi")])) = Except.ok v2 ∧
      dset s1 (Value.str "k") v2 =
        Except.ok (Value.dict [("k", Value.dict [("a", Value.str "hi")])]) ∧
      dlookup (Value.dict [("k", Value.dict [("a", Value.str "hi")])])
          (Value.str "k") = Except.ok v2 :=
  claim_C9_object_write 8 [] ("a", Node.nString []) [] (Value.str "k")
    (Value.dict [("a", Value.str "hi")]) (Value.dict [])
    (Value.dict [("k", Value.dict [("a", Value.str "hi")])]) rfl

/-- C1 counterexample: schema object(a: string, b: integer) applied to the
mapping with only "a" validates successfully, the missing key "b" is
fetched as null, but the corrected object written at `container["k"]` is
exactly the original mapping — "b" is absent, not inserted as null. -/
theorem claim_C1_counterexample :
    pyValidate 9 (Node.nObject [] [("a", Node.nString []), ("b", Node.nInteger [])])
        (Value.str "k") (Value.dict [("a", Value.str "hi")]) (Value.dict []) =
      Except.ok (Value.dict [("k", Value.dict [("a", Value.str "hi")])]) ∧
    assocFindStr [("a", Value.str "hi")] "b" = none ∧
    pyGet (Value.dict [("a", Value.str "hi")]) "b" = Except.ok Value.null :=
  ⟨rfl, rfl, rfl⟩

/-- C1 (amended): validating an object fetches a missing declared key as
null and calls the child's validate with the object itself as container,
but for scalar children without bound validators the threading returns the
object unchanged, so the missing key stays absent — no entry is written
for it (insertion could only come from a bound validator). -/
theorem claim_C1_missing_key (cs : List (String × Node)) (f : Nat)
    (v v' : Value) (hall : cs.all (fun p => scalarNoVal p.2) = true)
    (h : step f (VTask.fields cs v) = Except.ok v') :
    v' = v ∧
    (∀ (xs : List (String × Value)) (ck : String), assocFindStr xs ck = none →
      pyGet (Value.dict xs) ck = Except.ok Value.null) :=
  ⟨fields_scalar_frame cs f v v' hall h,
   fun xs ck hn => by simp [pyGet, hn]⟩

/-- C1 witness: threading the children of object(a: string, b: integer)
over the mapping with only "a" leaves it unchanged, and the missing "b" is
fetched as null. -/
theorem claim_C1_witness :
    Value.dict [("a", Value.str "hi")] = Value.dict [("a", Value.str "hi")] ∧
    pyGet (Value.dict [("a", Value.str "hi")]) "b" = Except.ok Value.null :=
  ⟨(claim_C1_missing_key [("a", Node.nString []), ("b", Node.nInteger [])] 8
      (Value.dict [("a", Value.str "hi")]) (Value.dict [("a", Value.str "hi")])
      rfl rfl).1,
   (claim_C1_missing_key [("a", Node.nString []), ("b", Node.nInteger [])] 8
      (Value.dict [("a", Value.str "hi")]) (Value.dict [("a", Value.str "hi")])
      rfl rfl).2 [("a", Value.str "hi")] "b" rfl⟩

theorem scalar_idem (f2 : Nat) (n : Node) (k v s s' : Value)
    (hs : isScalar n = true) (hv : ownValidators n = [])
    (h : step (f2 + 1) (VTask.node n k v s) = Except.ok s') :
    step (f2 + 1) (VTask.node n k v s') = Except.ok s' := by
  rw [scalar_step_eq f2 n k v s hs hv] at h
  rw [scalar_step_eq f2 n k v s' hs hv]
  cases hc : scalarFromStr n v with
  | error e =>
    rw [hc, exbind_error] at h
    exact absurd h (by simp)
  | ok w => rw [exbind_ok]

/-- C8 counterexample: with no bound validators anywhere, a choice whose
key collides with its case name overwrites the branch slot with the
selector: the first validate succeeds and corrects the container, but
re-running validate with the same arguments on the corrected container
raises `TypeCoercionError` instead of returning it unchanged. -/
theorem claim_C8_counterexample :
    pyValidate 9 (Node.nChoice none [("x", Node.nCase [] [("v", Node.nInteger [])])])
        (Value.str "x") (Value.str "x") (Value.dict [("x", Value.str "42")]) =
      Except.ok (Value.dict [("x", Value.str "x")]) ∧
    pyValidate 9 (Node.nChoice none [("x", Node.nCase [] [("v", Node.nInteger [])])])
        (Value.str "x") (Value.str "x") (Value.dict [("x", Value.str "x")]) =
      Except.error Err.typeCoercion :=
  ⟨rfl, rfl⟩

/-- C8 (amended): validation is idempotent when no validator rewrites
anything and the root node is a scalar, list or object node (whose own
bound-validator list is empty — descendants may even keep theirs, since
the recursion reads only the value): a successful validate makes the
corrected container a fixed point — re-running validate with the same key
and value on it returns it unchanged. For a Choice (or Case) root the
final `container[key] = selector` write can clobber the branch slot the
next run reads, so a second run may fail (see the counterexample). -/
theorem claim_C8_idempotent (f : Nat) (n : Node) (k v s s' : Value)
    (hroot : rootIdemOk n = true) (hv : ownValidators n = [])
    (h : pyValidate f n k v s = Except.ok s') :
    pyValidate f n k v s' = Except.ok s' := by
  cases f with
  | zero => simp [pyValidate, step] at h
  | succ f2 =>
    simp only [pyValidate] at h ⊢
    cases n with
    | nString vs => exact scalar_idem f2 _ k v s s' rfl hv h
    | nInteger vs => exact scalar_idem f2 _ k v s s' rfl hv h
    | nBoolean vs => exact scalar_idem f2 _ k v s s' rfl hv h
    | nDate vs fmt => exact scalar_idem f2 _ k v s s' rfl hv h
    | nTime vs fmt => exact scalar_idem f2 _ k v s s' rfl hv h
    | nEmail vs => exact scalar_idem f2 _ k v s s' rfl hv h
    | nUrl vs => exact scalar_idem f2 _ k v s s' rfl hv h
    | nPercentage vs => exact scalar_idem f2 _ k v s s' rfl hv h
    | nList vs cs =>
      simp only [ownValidators] at hv
      subst hv
      cases cs with
      | nil => simp only [step, applyValidators, exbind_ok]
      | cons c rest =>
        simp only [step, applyValidators, exbind_ok] at h ⊢
        cases hx : pyEnumerate v with
        | error e =>
          rw [hx, exbind_error] at h
          exact absurd h (by simp)
        | ok xs =>
          rw [hx, exbind_ok] at h
          rw [exbind_ok]
          cases hi : step f2 (VTask.items c.2 xs 0 v) with
          | error e =>
            rw [hi, exbind_error] at h
            exact absurd h (by simp)
          | ok w => rw [exbind_ok]
    | nObject vs cs =>
      simp only [ownValidators] at hv
      subst hv
      cases cs with
      | nil => simp only [step, applyValidators, exbind_ok]
      | cons c rest =>
        simp only [step, applyValidators, exbind_ok] at h ⊢
        cases hf : step f2 (VTask.fields (c :: rest) v) with
        | error e =>
          rw [hf, exbind_error] at h
          exact absurd h (by simp)
        | ok v2 =>
          rw [hf, exbind_ok] at h
          rw [exbind_ok]
          exact dset_idem h
    | nChoice onFail cs => simp [rootIdemOk] at hroot
    | nCase vs cs => simp [rootIdemOk] at hroot

/-- C8 witness: re-running the object-root validation on its corrected
container returns the container unchanged. -/
theorem claim_C8_witness :
    pyValidate 9 (Node.nObject [] [("a", Node.nString [])]) (Value.str "k")
        (Value.dict [("a", Value.str "hi")])
        (Value.dict [("k", Value.dict [("a", Value.str "hi")])]) =
      Except.ok (Value.dict [("k", Value.dict [("a", Value.str "hi")])]) :=
  claim_C8_idempotent 9 (Node.nObject [] [("a", Node.nString [])])
    (Value.str "k") (Value.dict [("a", Value.str "hi")]) (Value.dict [])
    (Value.dict [("k", Value.dict [("a", Value.str "hi")])]) rfl rfl rfl

end Guardrails
